import Mathlib

/-!
Verification of the Subzero bitcode-translator core (PNaClTranslator.cpp,
IceInstARM32.cpp) against its natural-language specification.

The development shallowly embeds the relevant source functions:

* machine integers are modelled as `Nat`/`Int`; where the C++ expression is
  only defined for in-range values, hypotheses record those ranges;
* stateful parser code is modelled by explicit state passing
  (`FuncState`, `GlobalsState`, `TypesState`), with the accumulated
  diagnostic list standing in for the `Error(...)` calls.  Diagnostics carry
  the message body handed to `Error` (without the bit-position prefix the
  error routine prepends); messages whose exact wording no claim depends on
  are lightly abbreviated (apostrophes dropped, dumped operands elided), as
  noted at each definition;
* helpers of the repository that live in files not present in the corpus
  (Ice type predicates, Utils rotation helpers, the ARM32 condition table,
  the sign-rotated decoder, numeric record codes) are modelled from the spec
  and are marked "Modelled from the spec:" in their doc comments;
* the IR-generation-disabled mode (a debug flag) is not modelled: all runs
  are with IR generation enabled, matching the spec's description.
-/

namespace Subzero

/-! Ice types (spec section 3). -/

/-- Modelled from the spec: the simple primitive type set `{void, i1, i8,
i16, i32, i64, f32, f64, v4i1, v8i1, v16i1, v16i8, v8i16, v4i32, v4f32}`
(IceTypes.h / IceTypes.def are not part of the corpus). -/
inductive IceType where
  | void | i1 | i8 | i16 | i32 | i64 | f32 | f64
  | v4i1 | v8i1 | v16i1 | v16i8 | v8i16 | v4i32 | v4f32
deriving DecidableEq, Repr

/-- Modelled from the spec: textual name of a type, as printed by the
stream insertion operator for `Ice::Type`. -/
def IceType.name : IceType → String
  | .void => "void" | .i1 => "i1" | .i8 => "i8" | .i16 => "i16"
  | .i32 => "i32" | .i64 => "i64" | .f32 => "f32" | .f64 => "f64"
  | .v4i1 => "v4i1" | .v8i1 => "v8i1" | .v16i1 => "v16i1"
  | .v16i8 => "v16i8" | .v8i16 => "v8i16" | .v4i32 => "v4i32"
  | .v4f32 => "v4f32"

/-- Modelled from the spec: `Ice::isVectorType`. -/
def isVectorType : IceType → Bool
  | .v4i1 | .v8i1 | .v16i1 | .v16i8 | .v8i16 | .v4i32 | .v4f32 => true
  | _ => false

/-- Modelled from the spec: `Ice::isIntegerType` (scalar or vector of
integers). -/
def isIntegerType : IceType → Bool
  | .i1 | .i8 | .i16 | .i32 | .i64
  | .v4i1 | .v8i1 | .v16i1 | .v16i8 | .v8i16 | .v4i32 => true
  | _ => false

/-- Modelled from the spec: `Ice::isFloatingType`. -/
def isFloatingType : IceType → Bool
  | .f32 | .f64 | .v4f32 => true
  | _ => false

/-- Modelled from the spec: `Ice::isIntegerArithmeticType` (integer types on
which the arithmetic sub-kinds are legal, excluding `i1` and vectors of
`i1`). -/
def isIntegerArithmeticType : IceType → Bool
  | .i8 | .i16 | .i32 | .i64 | .v16i8 | .v8i16 | .v4i32 => true
  | _ => false

/-- Modelled from the spec: `Ice::isScalarIntegerType`. -/
def isScalarIntegerType : IceType → Bool
  | .i1 | .i8 | .i16 | .i32 | .i64 => true
  | _ => false

/-- Modelled from the spec: `Ice::getScalarIntBitWidth`. -/
def getScalarIntBitWidth : IceType → Nat
  | .i1 => 1 | .i8 => 8 | .i16 => 16 | .i32 => 32 | .i64 => 64
  | _ => 0

/-- Modelled from the spec: `Ice::typeNumElements` (element count of a
vector type; `1` for scalars). -/
def typeNumElements : IceType → Nat
  | .v4i1 => 4 | .v8i1 => 8 | .v16i1 => 16 | .v16i8 => 16
  | .v8i16 => 8 | .v4i32 => 4 | .v4f32 => 4
  | _ => 1

/-- Modelled from the spec: `Ice::typeElementType` (element type of a vector
type; the type itself for scalars). -/
def typeElementType : IceType → IceType
  | .v4i1 => .i1 | .v8i1 => .i1 | .v16i1 => .i1 | .v16i8 => .i8
  | .v8i16 => .i16 | .v4i32 => .i32 | .v4f32 => .f32
  | t => t

/-- Modelled from the spec: `Ice::typeWidthInBytes`. -/
def typeWidthInBytes : IceType → Nat
  | .void => 0 | .i1 => 1 | .i8 => 1 | .i16 => 2 | .i32 => 4
  | .i64 => 8 | .f32 => 4 | .f64 => 8
  | _ => 16

/-! ARM32 flexible immediate encoding (IceInstARM32.cpp). -/

/-- Modelled from the spec: rotation of a 32-bit value left by `amt` bits
(the helper `Utils::rotateLeft32` lives in IceUtils.h, which is not in the
corpus; the spec describes the encoding as "an 8-bit immediate rotated by an
even amount in [0, 30]").  For `v < 2^32` and `amt ≤ 32` this is the
standard bit rotation, written arithmetically. -/
def rotateLeft32 (v amt : Nat) : Nat :=
  v % 2 ^ (32 - amt) * 2 ^ amt + v / 2 ^ (32 - amt)

/-- Modelled from the spec: rotation of a 32-bit value right by `amt` bits
(decoder counterpart used by the round-trip property). -/
def rotateRight32 (v amt : Nat) : Nat :=
  v % 2 ^ amt * 2 ^ (32 - amt) + v / 2 ^ amt

/-- Rotation-search loop of `OperandARM32FlexImm::canHoldImm`
(`for (int Rot = 1; Rot < 16; Rot++)`), returning the first
`(RotateAmt, Immed_8)` with `rotateLeft32 v (2*Rot) ≤ 0xFF`; the loop over
`Rot = j+1` for `j` in `[0, 15)` is rendered with `List.findSome?`. -/
def findFlexRot (v : Nat) : Option (Nat × Nat) :=
  (List.range 15).findSome? fun j =>
    let imm8 := rotateLeft32 v (2 * (j + 1))
    if imm8 ≤ 0xFF then some (j + 1, imm8) else none

/-- Source function `OperandARM32FlexImm::canHoldImm`: returns
`some (RotateAmt, Immed_8)` when the 32-bit immediate is representable,
trying rotation `0` specially for small values. -/
def canHoldImm (v : Nat) : Option (Nat × Nat) :=
  if v ≤ 0xFF then some (0, v)
  else findFlexRot v

/-! ARM32 branch instruction and branch optimization (IceInstARM32.cpp). -/

/-- Modelled from the spec: the ARM32 condition codes (predicate set), with
the "fixed condition-opposite table" (ICEINSTARM32COND_TABLE of
IceInstARM32.def, not in the corpus). -/
inductive Cond where
  | eq | ne | cs | cc | mi | pl | vs | vc
  | hi | ls | ge | lt | gt | le | al | kNone
deriving DecidableEq, Repr

/-- Modelled from the spec: `InstARM32::getOppositeCondition`, the fixed
condition-opposite table. -/
def getOppositeCondition : Cond → Cond
  | .eq => .ne | .ne => .eq | .cs => .cc | .cc => .cs
  | .mi => .pl | .pl => .mi | .vs => .vc | .vc => .vs
  | .hi => .ls | .ls => .hi | .ge => .lt | .lt => .ge
  | .gt => .le | .le => .gt | .al => .kNone | .kNone => .kNone

/-- State of an `InstARM32Br` instruction: the true/false CFG-node targets
(node indices; an unconditional branch stores its target in `targetFalse`
and has no `targetTrue`), the optional intra-block label, the predicate,
and the deleted flag set by `setDeleted()`. -/
structure InstARM32Br where
  targetTrue : Option Nat
  targetFalse : Option Nat
  label : Option Nat
  predicate : Cond
  deleted : Bool
deriving DecidableEq, Repr

/-- Modelled from the spec: `InstARM32Br::isUnconditionalBranch` (declared in
IceInstARM32.h, not in the corpus).  An unconditional branch carries no
true target — consistent with the source assertion
`assert(getTargetTrue() == nullptr)` in the unconditional case of
`optimizeBranch` and with the emitters, which print `targetFalse` for an
unconditional branch. -/
def isUnconditionalBranch (b : InstARM32Br) : Bool :=
  b.targetTrue.isNone

/-- Source function `InstARM32Br::optimizeBranch`, given the next node in
block layout order.  Returns the updated instruction and the boolean
result. -/
def optimizeBranch (b : InstARM32Br) (nextNode : Option Nat) :
    InstARM32Br × Bool :=
  match nextNode with
  | none => (b, false)
  | some nn =>
    if b.label.isSome then (b, false)
    else
      match b.targetFalse with
      | none => (b, false)
      | some tf =>
        if isUnconditionalBranch b ∧ tf = nn then
          ({ b with deleted := true }, true)
        else if tf = nn then
          ({ b with targetFalse := none }, true)
        else if b.targetTrue = some nn then
          ({ b with predicate := getOppositeCondition b.predicate,
                    targetTrue := some tf,
                    targetFalse := none }, true)
        else (b, false)

/-! Alignment decoding (PNaClTranslator.cpp). -/

/-- Upper limit of alignment power allowed by LLVM
(`FunctionParser::AlignPowerLimit`). -/
def AlignPowerLimit : Nat := 29

/-- Source function `FunctionParser::extractAlignment`: decodes the
alignment used by alloca/load/store records, with error recovery value `1`
above the limit.  Returns the alignment together with the diagnostics
produced. -/
def extractAlignment (instName : String) (alignPower : Nat) :
    Nat × List String :=
  if alignPower ≤ AlignPowerLimit then
    ((1 <<< alignPower) >>> 1, [])
  else
    (1, [instName ++ " alignment greater than 2**" ++ toString AlignPowerLimit
          ++ ". Found: 2**" ++ toString alignPower])

/-- Extended type slot of the type table: created undefined, later defined
exactly once as a simple type or a function signature. -/
inductive ExtendedType where
  | undefined
  | simple (ty : IceType)
  | funcSig (ret : IceType) (args : List IceType)
deriving DecidableEq, Repr

/-- Kind name of an extended type, standing in for the dump of the slot in
diagnostics. -/
def ExtendedType.kindName : ExtendedType → String
  | .undefined => "undefined"
  | .simple _ => "simple"
  | .funcSig _ _ => "function"

/-- Source function `TopLevelParser::getSimpleTypeByID` (via
`getTypeByIDAsKind(ID, Simple)`): looks up a type ID expecting a simple
type; on failure reports a diagnostic (`reportBadTypeIDAs`) and recovers
with `void`. -/
def getSimpleTypeByID (table : List ExtendedType) (id : Nat) :
    IceType × List String :=
  match table[id]? with
  | some (.simple ty) => (ty, [])
  | some ty =>
      (.void, ["Type id " ++ toString id ++ " not simple. Found: "
                ++ ty.kindName])
  | none =>
      (.void, ["Can not find extended type for type id: " ++ toString id])

/-- State of the types-block parser: the type table of the top-level
parser, the next type ID to define, and the diagnostics so far. -/
structure TypesState where
  table : List ExtendedType
  nextTypeId : Nat
  errors : List String
deriving DecidableEq, Repr

/-- Diagnostics of `TopLevelParser::getTypeByIDForDefining` (via
`getTypeByIDAsKind(ID, Undefined)`): a slot being defined must currently be
undefined; otherwise an error is reported (the slot is still handed out for
redefinition, resizing the table when needed). -/
def getTypeByIDForDefiningErrors (table : List ExtendedType) (id : Nat) :
    List String :=
  match table[id]? with
  | some .undefined => []
  | some ty =>
      ["Type id " ++ toString id ++ " not undefined. Found: " ++ ty.kindName]
  | none =>
      ["Can not find extended type for type id: " ++ toString id]

/-- Writes slot `id` of the type table, resizing with undefined slots if the
table is too small (the resize of `getTypeByIDForDefining`). -/
def tableSetAt (table : List ExtendedType) (id : Nat) (v : ExtendedType) :
    List ExtendedType :=
  let t :=
    if table.length ≤ id then
      table ++ List.replicate (id + 1 - table.length) .undefined
    else table
  t.set id v

/-- Argument-type loop of the types-block `FUNCTION` record handler.  For
each parameter the type ID is resolved; when the resolved type is `void` the
source builds the message "Type for parameter N not valid. Found: void"
into a local buffer but never calls `Error(StrBuf.str())` on it — the
diagnostic is dropped and only the recovery to `i32` takes effect.  This
model reproduces that behavior exactly: no diagnostic is emitted for a
`void` parameter. -/
def funcRecordArgLoop (table : List ExtendedType) (paramIds : List Nat) :
    List IceType × List String :=
  paramIds.foldl
    (fun acc vid =>
      let (ty, errs) := getSimpleTypeByID table vid
      let ty := if ty = IceType.void then IceType.i32 else ty
      (acc.1 ++ [ty], acc.2 ++ errs))
    ([], [])

/-- Source handler of the `FUNCTION` record in
`TypesParser::ProcessRecord` (`TYPE_CODE_FUNCTION`:
`[vararg, retty, paramty x N]`). -/
def typesProcessFunctionRecord (st : TypesState) (values : List Nat) :
    TypesState :=
  if values.length < 2 then
    { st with errors := st.errors ++
        ["Type signature record expects at least 2 arguments. Found: "
          ++ toString values.length] }
  else
    let st :=
      if values[0]! ≠ 0 then
        { st with errors := st.errors ++ ["Function type can not define varargs"] }
      else st
    let id := st.nextTypeId
    let st := { st with errors := st.errors ++ getTypeByIDForDefiningErrors st.table id,
                        nextTypeId := id + 1 }
    let (retTy, retErrs) := getSimpleTypeByID st.table values[1]!
    let st := { st with errors := st.errors ++ retErrs }
    let (args, argErrs) := funcRecordArgLoop st.table (values.drop 2)
    { st with errors := st.errors ++ argErrs,
              table := tableSetAt st.table id (.funcSig retTy args) }

/-! Globals block (GlobalsParser of PNaClTranslator.cpp). -/

/-- Operand of the flat per-function value space: an SSA variable
(numbered by creation order, as by `Cfg::makeVariable`) or the relocatable
constant materialized for a global ID by
`getOrCreateGlobalConstantByID` (its type is the target pointer type
`i32`). -/
inductive Operand where
  | var (num : Nat) (ty : IceType)
  | globalSym (id : Nat)
deriving DecidableEq, Repr

/-- Type of an operand (`Ice::Operand::getType`). -/
def Operand.getType : Operand → IceType
  | .var _ ty => ty
  | .globalSym _ => .i32

/-- Arithmetic sub-kinds (`Ice::InstArithmetic::OpKind`). -/
inductive ArithOp where
  | add | fadd | sub | fsub | mul | fmul | udiv | sdiv | fdiv
  | urem | srem | frem | shl | lshr | ashr | andOp | orOp | xorOp
deriving DecidableEq, Repr

/-- Modelled from the spec: printable operator name
(`Ice::InstArithmetic::getOpName`). -/
def ArithOp.opName : ArithOp → String
  | .add => "add" | .fadd => "fadd" | .sub => "sub" | .fsub => "fsub"
  | .mul => "mul" | .fmul => "fmul" | .udiv => "udiv" | .sdiv => "sdiv"
  | .fdiv => "fdiv" | .urem => "urem" | .srem => "srem" | .frem => "frem"
  | .shl => "shl" | .lshr => "lshr" | .ashr => "ashr"
  | .andOp => "and" | .orOp => "or" | .xorOp => "xor"

/-- Cast sub-kinds (`Ice::InstCast::OpKind`). -/
inductive CastOp where
  | trunc | zext | sext | fptoui | fptosi | uitofp | sitofp
  | fptrunc | fpext | bitcast
deriving DecidableEq, Repr

/-- Modelled from the spec: printable cast name
(`Ice::InstCast::getCastName`). -/
def CastOp.castName : CastOp → String
  | .trunc => "trunc" | .zext => "zext" | .sext => "sext"
  | .fptoui => "fptoui" | .fptosi => "fptosi" | .uitofp => "uitofp"
  | .sitofp => "sitofp" | .fptrunc => "fptrunc" | .fpext => "fpext"
  | .bitcast => "bitcast"

/-- High-level instructions produced by the modelled record subset. -/
inductive Inst where
  | arithmetic (op : ArithOp) (dest : Operand) (src1 src2 : Operand)
  | assign (dest src : Operand)
  | castInst (op : CastOp) (dest : Operand) (src : Operand)
  | retVoid
  | retValue (val : Operand)
  | phiInst (dest : Operand) (args : List (Operand × Nat))
  | unreachableInst
deriving DecidableEq, Repr

/-- Terminator predicate over the modelled instruction subset. -/
def Inst.isTerminator : Inst → Bool
  | .retVoid | .retValue _ | .unreachableInst => true
  | _ => false

/-- State of the function-block parser, mirroring the fields of
`FunctionParser`: the type table (shared with the top-level parser), the
basic blocks as instruction lists (`Func->getNodes()`), the index of the
current block, the local/global ID partition, the local operand slots, the
next value-producing index, the terminating flag, a fresh-variable counter
(`Cfg::makeVariable`), the diagnostics, and a fatal flag
(`report_fatal_error`). -/
structure FuncState where
  typeTable : List ExtendedType
  nodes : List (List Inst)
  currentBbIndex : Nat
  cachedNumGlobalValueIDs : Nat
  localOperands : List (Option Operand)
  nextLocalInstIndex : Nat
  instIsTerminating : Bool
  nextVarNum : Nat
  errors : List String
  fatal : Bool
deriving DecidableEq, Repr

/-- Appends one diagnostic. -/
def FuncState.addError (st : FuncState) (msg : String) : FuncState :=
  { st with errors := st.errors ++ [msg] }

/-- Appends diagnostics. -/
def FuncState.addErrors (st : FuncState) (msgs : List String) : FuncState :=
  { st with errors := st.errors ++ msgs }

/-- Source function `FunctionParser::convertRelativeToAbsIndex`: converts a
relative index (with respect to `baseIndex`) to an absolute value index.
Returns the result and whether the "Invalid relative value id" diagnostic
fires (recovering with result 0). -/
def convertRelativeToAbsIndex (id baseIndex : Int) : Int × Bool :=
  if baseIndex < id then (0, true) else (baseIndex - id, false)

/-- Source function `FunctionParser::getOperand`: the value referenced by an
absolute index.  Global IDs materialize a relocatable constant; a local
index beyond the operand vector, or an undefined slot, is diagnosed and
aborts translation (`report_fatal_error`, modelled by the fatal flag and a
`none` result). -/
def getOperand (st : FuncState) (index : Nat) : Option Operand × FuncState :=
  if index < st.cachedNumGlobalValueIDs then
    (some (.globalSym index), st)
  else
    match st.localOperands[index - st.cachedNumGlobalValueIDs]? with
    | some (some op) => (some op, st)
    | _ =>
        (none,
         { st.addError ("Value index " ++ toString index ++ " not defined!")
             with fatal := true })

/-- Source function `FunctionParser::getRelativeOperand`:
`getOperand(convertRelativeToAbsIndex(Index, BaseIndex))`, with the
conversion diagnostic emitted on overflow of the base. -/
def getRelativeOperand (st : FuncState) (id baseIndex : Int) :
    Option Operand × FuncState :=
  let (abs, err) := convertRelativeToAbsIndex id baseIndex
  let st :=
    if err then
      st.addError ("Invalid relative value id: " ++ toString id
        ++ " (must be <= " ++ toString baseIndex ++ ")")
    else st
  getOperand st abs.toNat

/-- Source function `FunctionParser::createInstVar`: makes a fresh variable
of the given type; type `void` is diagnosed and recovered as `i32`. -/
def createInstVar (st : FuncState) (ty : IceType) : Operand × FuncState :=
  let (ty, st) :=
    if ty = IceType.void then
      (IceType.i32,
       st.addError "Can not define instruction value using type void")
    else (ty, st)
  (.var st.nextVarNum ty, { st with nextVarNum := st.nextVarNum + 1 })

/-- Source function `FunctionParser::setOperand`: sets a local operand slot,
growing the vector for forward references; a conflicting second definition
is diagnosed ("Multiple definitions for index N") and overwritten. -/
def setOperandAt (st : FuncState) (index : Nat) (op : Operand) : FuncState :=
  let li := index - st.cachedNumGlobalValueIDs
  if li = st.localOperands.length then
    { st with localOperands := st.localOperands ++ [some op] }
  else if st.localOperands.length < li then
    let padded :=
      st.localOperands ++ List.replicate (li + 1 - st.localOperands.length) none
    { st with localOperands := padded.set li (some op) }
  else
    match st.localOperands[li]? with
    | some none =>
        { st with localOperands := st.localOperands.set li (some op) }
    | some (some old) =>
        if old = op then st
        else
          { st.addError ("Multiple definitions for index " ++ toString index)
              with localOperands := st.localOperands.set li (some op) }
    | none => st

/-- Source function `FunctionParser::getNextInstVar`: produces the variable
defined by the next value-producing instruction, honoring an earlier
forwardtyperef reservation of the slot (which must be a variable of the
same type, else "Illegal forward referenced instruction" is diagnosed and a
fresh variable is used). -/
def getNextInstVar (st : FuncState) (ty : IceType) : Operand × FuncState :=
  let li := st.nextLocalInstIndex - st.cachedNumGlobalValueIDs
  match st.localOperands[li]? with
  | some (some op) =>
    match op with
    | .var n vty =>
      if vty = ty then
        (.var n vty, { st with nextLocalInstIndex := st.nextLocalInstIndex + 1 })
      else
        let st := st.addError ("Illegal forward referenced instruction ("
          ++ toString st.nextLocalInstIndex ++ ")")
        createInstVar
          { st with nextLocalInstIndex := st.nextLocalInstIndex + 1 } ty
    | .globalSym _ =>
        let st := st.addError ("Illegal forward referenced instruction ("
          ++ toString st.nextLocalInstIndex ++ ")")
        createInstVar
          { st with nextLocalInstIndex := st.nextLocalInstIndex + 1 } ty
  | _ =>
    let (v, st) := createInstVar st ty
    let st := setOperandAt st st.nextLocalInstIndex v
    (v, { st with nextLocalInstIndex := st.nextLocalInstIndex + 1 })

/-- Appends an instruction to the current basic block
(`CurrentNode->appendInst`). -/
def appendInst (st : FuncState) (inst : Inst) : FuncState :=
  match st.nodes[st.currentBbIndex]? with
  | some node =>
      { st with nodes := st.nodes.set st.currentBbIndex (node ++ [inst]) }
  | none => st

/-- Source function `FunctionParser::getBasicBlock`: index of the requested
basic block, diagnosed and recovered as block 0 when out of range. -/
def getBasicBlockIdx (st : FuncState) (index : Nat) : Nat × FuncState :=
  if index < st.nodes.length then (index, st)
  else
    (0, st.addError ("Reference to basic block " ++ toString index
          ++ " not found. Must be less than " ++ toString st.nodes.length))

/-- Source function `FunctionParser::appendErrorInstruction`: appends a
placeholder `assign Var, Var` with a fresh variable of the given type so
that instruction indices line up; nothing is appended for `void`. -/
def appendErrorInstruction (st : FuncState) (ty : IceType) : FuncState :=
  if ty = IceType.void then st
  else
    let (v, st) := getNextInstVar st ty
    appendInst st (.assign v v)

/-- Modelled from the spec: the sign-rotated integer decoder
`decode(v) = (v & 1) ? -(v >> 1) : (v >> 1)`
(`NaClDecodeSignRotatedValue`, declared in the bitstream reader headers,
which are not in the corpus; the spec gives the formula verbatim). -/
def naClDecodeSignRotatedValue (v : Nat) : Int :=
  if v % 2 = 1 then -((v / 2 : Nat) : Int) else ((v / 2 : Nat) : Int)

/-- Diagnostic of `FunctionParser::ReportInvalidBinaryOp`. -/
def invalidBinaryOpMsg (op : ArithOp) (ty : IceType) : String :=
  "Invalid operator type for " ++ op.opName ++ ". Found " ++ ty.name

/-- Source function `FunctionParser::isValidIntegerArithOp`. -/
def isValidIntegerArithOp (op : ArithOp) (ty : IceType) :
    Bool × List String :=
  if isIntegerArithmeticType ty then (true, [])
  else (false, [invalidBinaryOpMsg op ty])

/-- Source function `FunctionParser::isValidIntegerLogicalOp`. -/
def isValidIntegerLogicalOp (op : ArithOp) (ty : IceType) :
    Bool × List String :=
  if isIntegerType ty then (true, [])
  else (false, [invalidBinaryOpMsg op ty])

/-- Source function `FunctionParser::isValidFloatingArithOp`. -/
def isValidFloatingArithOp (op : ArithOp) (ty : IceType) :
    Bool × List String :=
  if isFloatingType ty then (true, [])
  else (false, [invalidBinaryOpMsg op ty])

/-- Source function `FunctionParser::convertBinopOpcode`, with the numeric
`naclbitc::BINOP_*` codes modelled from the PNaCl bitcode ABI (`ADD=0,
SUB=1, MUL=2, UDIV=3, SDIV=4, UREM=5, SREM=6, SHL=7, LSHR=8, ASHR=9,
AND=10, OR=11, XOR=12`; the spec fixes these as external ABI).  The missing
space in the default-case diagnostic is present in the source. -/
def convertBinopOpcode (opcode : Nat) (ty : IceType) :
    ArithOp × Bool × List String :=
  let intOrFloat := fun (iop fop : ArithOp) =>
    if isIntegerType ty then
      let (ok, errs) := isValidIntegerArithOp iop ty
      (iop, ok, errs)
    else
      let (ok, errs) := isValidFloatingArithOp fop ty
      (fop, ok, errs)
  let intArith := fun (iop : ArithOp) =>
    let (ok, errs) := isValidIntegerArithOp iop ty
    (iop, ok, errs)
  let intLogical := fun (iop : ArithOp) =>
    let (ok, errs) := isValidIntegerLogicalOp iop ty
    (iop, ok, errs)
  match opcode with
  | 0 => intOrFloat .add .fadd
  | 1 => intOrFloat .sub .fsub
  | 2 => intOrFloat .mul .fmul
  | 3 => intArith .udiv
  | 4 => intOrFloat .sdiv .fdiv
  | 5 => intArith .urem
  | 6 => intOrFloat .srem .frem
  | 7 => intArith .shl
  | 8 => intArith .lshr
  | 9 => intArith .ashr
  | 10 => intLogical .andOp
  | 11 => intLogical .orOp
  | 12 => intLogical .xorOp
  | n =>
      (.add, false,
       ["Binary opcode " ++ toString n ++ "not understood for type "
         ++ ty.name])

/-- Source function `simplifyOutCommonVectorType`: simplifies out vector
types when both are vectors of the same size; `none` models returning
false. -/
def simplifyOutCommonVectorType (t1 t2 : IceType) :
    Option (IceType × IceType) :=
  match isVectorType t1, isVectorType t2 with
  | true, true =>
      if typeNumElements t1 = typeNumElements t2 then
        some (typeElementType t1, typeElementType t2)
      else none
  | false, false => some (t1, t2)
  | _, _ => none

/-- Source function `isIntTruncCastValid`. -/
def isIntTruncCastValid (sourceType targetType : IceType) : Bool :=
  isIntegerType sourceType && isIntegerType targetType &&
    match simplifyOutCommonVectorType sourceType targetType with
    | some (s, t) => decide (getScalarIntBitWidth t < getScalarIntBitWidth s)
    | none => false

/-- Source function `isFloatTruncCastValid`. -/
def isFloatTruncCastValid (sourceType targetType : IceType) : Bool :=
  match simplifyOutCommonVectorType sourceType targetType with
  | some (s, t) => decide (s = IceType.f64 ∧ t = IceType.f32)
  | none => false

/-- Source function `isIntExtCastValid`. -/
def isIntExtCastValid (sourceType targetType : IceType) : Bool :=
  isIntTruncCastValid targetType sourceType

/-- Source function `isFloatExtCastValid`. -/
def isFloatExtCastValid (sourceType targetType : IceType) : Bool :=
  isFloatTruncCastValid targetType sourceType

/-- Source function `isFloatToIntCastValid`. -/
def isFloatToIntCastValid (sourceType targetType : IceType) : Bool :=
  if !(isFloatingType sourceType && isIntegerType targetType) then false
  else
    match isVectorType sourceType, isVectorType targetType with
    | true, true => typeNumElements sourceType == typeNumElements targetType
    | false, false => true
    | _, _ => false

/-- Source function `isIntToFloatCastValid`. -/
def isIntToFloatCastValid (sourceType targetType : IceType) : Bool :=
  isFloatToIntCastValid targetType sourceType

/-- Scalar case of `bitcastSizeInBits` (`i1` counts as 1 bit, other scalars
as `size-in-bytes × 8`). -/
def bitcastScalarSizeInBits (ty : IceType) : Nat :=
  if ty = IceType.i1 then 1 else typeWidthInBytes ty * 8

/-- Source function `bitcastSizeInBits`.  The recursion of the source
unfolds exactly once, because element types of the vector set are
scalars. -/
def bitcastSizeInBits (ty : IceType) : Nat :=
  if isVectorType ty then
    typeNumElements ty * bitcastScalarSizeInBits (typeElementType ty)
  else bitcastScalarSizeInBits ty

/-- Source function `isBitcastValid`. -/
def isBitcastValid (sourceType targetType : IceType) : Bool :=
  bitcastSizeInBits sourceType == bitcastSizeInBits targetType

/-- Source function `FunctionParser::convertCastOpToIceOp`, with the numeric
`naclbitc::CAST_*` codes modelled from the PNaCl bitcode ABI (`TRUNC=0,
ZEXT=1, SEXT=2, FPTOUI=3, FPTOSI=4, UITOFP=5, SITOFP=6, FPTRUNC=7, FPEXT=8,
BITCAST=11`).  Returns the cast kind, validity, and the diagnostics
produced ("Illegal cast: KIND SRC to TGT" on an invalid combination; the
default case has its own message and the trailing newline of the
source). -/
def convertCastOpToIceOp (opcode : Nat) (sourceType targetType : IceType) :
    CastOp × Bool × List String :=
  let withValidity := fun (k : CastOp) (ok : Bool) =>
    if ok then (k, true, ([] : List String))
    else
      (k, false,
       ["Illegal cast: " ++ k.castName ++ " " ++ sourceType.name ++ " to "
         ++ targetType.name])
  match opcode with
  | 0 => withValidity .trunc (isIntTruncCastValid sourceType targetType)
  | 1 => withValidity .zext (isIntExtCastValid sourceType targetType)
  | 2 => withValidity .sext (isIntExtCastValid sourceType targetType)
  | 3 => withValidity .fptoui (isFloatToIntCastValid sourceType targetType)
  | 4 => withValidity .fptosi (isFloatToIntCastValid sourceType targetType)
  | 5 => withValidity .uitofp (isIntToFloatCastValid sourceType targetType)
  | 6 => withValidity .sitofp (isIntToFloatCastValid sourceType targetType)
  | 7 => withValidity .fptrunc (isFloatTruncCastValid sourceType targetType)
  | 8 => withValidity .fpext (isFloatExtCastValid sourceType targetType)
  | 11 => withValidity .bitcast (isBitcastValid sourceType targetType)
  | n =>
      (.bitcast, false,
       ["Cast opcode " ++ toString n ++ " not understood.\n"])

/-- Modelled record subset of the function block (record codes are the
fixed `naclbitc::FUNC_CODE_*` ABI constants; the dispatch is represented by
constructors). -/
inductive FuncRecord where
  | declareBlocks (values : List Nat)
  | binop (values : List Nat)
  | castRec (values : List Nat)
  | retRec (values : List Nat)
  | unreachableRec (values : List Nat)
  | phi (values : List Nat)
  | forwardTypeRef (values : List Nat)
deriving DecidableEq, Repr

/-- Argument loop of the PHI record handler: each value operand is decoded
with the sign-rotated decoder and then resolved relative to the base; each
block index is resolved with `getBasicBlock` (recovery 0); a type mismatch
is diagnosed, appends a placeholder, and drops the phi. -/
def phiLoop (st : FuncState) (ty : IceType) (dest : Operand) (base : Int)
    (rest : List Nat) (acc : List (Operand × Nat)) : FuncState :=
  match rest with
  | v :: bb :: rest2 =>
    let (op, st) := getRelativeOperand st (naClDecodeSignRotatedValue v) base
    match op with
    | some o =>
      if o.getType ≠ ty then
        appendErrorInstruction
          (st.addError ("Value not type " ++ ty.name
            ++ " in phi instruction. Found: " ++ o.getType.name)) ty
      else
        let (bbIdx, st) := getBasicBlockIdx st bb
        phiLoop st ty dest base rest2 (acc ++ [(o, bbIdx)])
    | none => st
  | _ => appendInst st (.phiInst dest acc)

/-- Source function `FunctionParser::ProcessRecord` over the modelled
record subset.  The prelude switches to the next basic block when the
previous record was a terminator; `base` is the next-instruction index used
for relative operand references. -/
def processRecord (st : FuncState) (r : FuncRecord) : FuncState :=
  if st.fatal then st
  else
    let st :=
      if st.instIsTerminating then
        let st0 := { st with instIsTerminating := false }
        let (idx, st1) := getBasicBlockIdx st0 (st0.currentBbIndex + 1)
        { st1 with currentBbIndex := idx }
      else st
    let base : Int := st.nextLocalInstIndex
    match r with
    | .declareBlocks values =>
      if values.length ≠ 1 then
        st.addError ("Function count record expects 1 argument. Found: "
          ++ toString values.length)
      else
        let numBbs := values[0]!
        let (numBbs, st) :=
          if numBbs = 0 then
            (1, st.addError "Functions must contain at least one basic block.")
          else (numBbs, st)
        if st.nodes.length ≠ 1 then
          st.addError "Duplicate function block count record"
        else
          { st with nodes := st.nodes ++ List.replicate (numBbs - 1) [] }
    | .binop values =>
      if values.length ≠ 3 then
        st.addError ("Function binop record expects 3 arguments. Found: "
          ++ toString values.length)
      else
        let (op1, st) := getRelativeOperand st (values[0]! : Nat) base
        let (op2, st) := getRelativeOperand st (values[1]! : Nat) base
        match op1, op2 with
        | some o1, some o2 =>
          let t1 := o1.getType
          let t2 := o2.getType
          if t1 ≠ t2 then
            appendErrorInstruction
              (st.addError ("Binop argument types differ: " ++ t1.name
                ++ " and " ++ t2.name)) t1
          else
            let (opc, ok, errs) := convertBinopOpcode values[2]! t1
            let st := st.addErrors errs
            if ok then
              let (dest, st) := getNextInstVar st t1
              appendInst st (.arithmetic opc dest o1 o2)
            else appendErrorInstruction st t1
        | _, _ => st
    | .castRec values =>
      if values.length ≠ 3 then
        st.addError ("Function cast record expects 3 arguments. Found: "
          ++ toString values.length)
      else
        let (src, st) := getRelativeOperand st (values[0]! : Nat) base
        let (castType, terrs) := getSimpleTypeByID st.typeTable values[1]!
        let st := st.addErrors terrs
        match src with
        | some srcOp =>
          let (castKind, ok, cerrs) :=
            convertCastOpToIceOp values[2]! srcOp.getType castType
          let st := st.addErrors cerrs
          if ok then
            let (dest, st) := getNextInstVar st castType
            appendInst st (.castInst castKind dest srcOp)
          else appendErrorInstruction st castType
        | none => st
    | .retRec values =>
      match values with
      | [] =>
        let st := appendInst st .retVoid
        { st with instIsTerminating := true }
      | v :: _ =>
        let (retVal, st) := getRelativeOperand st (v : Nat) base
        match retVal with
        | some o =>
          let st := appendInst st (.retValue o)
          { st with instIsTerminating := true }
        | none => st
    | .unreachableRec values =>
      if values.length ≠ 0 then
        st.addError ("Function unreachable record expects 0 arguments. Found: "
          ++ toString values.length)
      else
        let st := appendInst st .unreachableInst
        { st with instIsTerminating := true }
    | .phi values =>
      if values.length < 3 then
        st.addError ("Function phi record expects at least 3 arguments. Found: "
          ++ toString values.length)
      else
        let (ty, terrs) := getSimpleTypeByID st.typeTable values[0]!
        let st := st.addErrors terrs
        if values.length % 2 = 0 then
          appendErrorInstruction
            (st.addError ("function block phi record size not valid: "
              ++ toString values.length)) ty
        else if ty = IceType.void then
          st.addError "Phi record using type void not allowed"
        else
          let (dest, st) := getNextInstVar st ty
          phiLoop st ty dest base (values.drop 1) []
    | .forwardTypeRef values =>
      if values.length ≠ 2 then
        st.addError ("Function forward type ref record expects 2 arguments. Found: "
          ++ toString values.length)
      else
        let (opType, terrs) := getSimpleTypeByID st.typeTable values[1]!
        let st := st.addErrors terrs
        let (v, st) := createInstVar st opType
        setOperandAt st values[0]! v

/-- Argument installation loop of the `FunctionParser` constructor
(`Func->addArg(getNextInstVar(ArgType))` per signature argument). -/
def addArgsLoop (st : FuncState) : List IceType → FuncState
  | [] => st
  | ty :: rest =>
      let (_, st) := getNextInstVar st ty
      addArgsLoop st rest

/-- Initial state of the function-block parser: block 0 pre-allocated as
the entry, the local index partition at the number of global IDs, and the
function arguments installed in order. -/
def initFuncState (typeTable : List ExtendedType) (numGlobalIDs : Nat)
    (argTypes : List IceType) : FuncState :=
  addArgsLoop
    { typeTable := typeTable, nodes := [[]], currentBbIndex := 0,
      cachedNumGlobalValueIDs := numGlobalIDs, localOperands := [],
      nextLocalInstIndex := numGlobalIDs, instIsTerminating := false,
      nextVarNum := 0, errors := [], fatal := false }
    argTypes

/-- Patch step of `FunctionParser::ExitBlock`: a basic block with no
instructions receives an `unreachable` instruction. -/
def exitBlockPatch (nodes : List (List Inst)) : List (List Inst) :=
  nodes.map fun n => if n.isEmpty then [Inst.unreachableInst] else n

/-- Diagnostics of the `ExitBlock` patch loop, one per empty block, in
index order. -/
def exitBlockErrors (nodes : List (List Inst)) : List String :=
  (nodes.enum.filter fun p => p.2.isEmpty).map fun p =>
    "Basic block " ++ toString p.1 ++ " contains no instructions"

/-- Source function `FunctionParser::ExitBlock`: patches empty blocks with
`unreachable`, recomputes predecessors (not modelled: it only rebuilds CFG
edges, never instruction lists), and hands the function to the target
lowering exactly when no errors were recorded (the returned Bool). -/
def exitBlock (st : FuncState) : FuncState × Bool :=
  let st2 := { st with nodes := exitBlockPatch st.nodes,
                       errors := st.errors ++ exitBlockErrors st.nodes }
  (st2, st2.errors.isEmpty)

/-- Runs a whole function block: constructor, records, block exit. -/
def runFunctionBlock (typeTable : List ExtendedType) (numGlobalIDs : Nat)
    (argTypes : List IceType) (records : List FuncRecord) :
    FuncState × Bool :=
  exitBlock (records.foldl processRecord
    (initFuncState typeTable numGlobalIDs argTypes))

/-! Helper lemmas. -/

/-- Rotating by 0 bits is the identity on 32-bit values. -/
theorem rotateLeft32_zero (v : Nat) (hv : v < 2 ^ 32) : rotateLeft32 v 0 = v := by
  unfold rotateLeft32
  simp only [Nat.sub_zero, pow_zero, mul_one]
  omega

/-- Rotating right by 0 bits is the identity. -/
theorem rotateRight32_zero (v : Nat) : rotateRight32 v 0 = v := by
  unfold rotateRight32
  simp [Nat.mod_one]

/-- Right rotation undoes left rotation on 32-bit values. -/
theorem rotateRight_rotateLeft (v k : Nat) (hv : v < 2 ^ 32) (hk : k ≤ 32) :
    rotateRight32 (rotateLeft32 v k) k = v := by
  unfold rotateLeft32 rotateRight32
  set m := 32 - k with hm
  have hmk : m + k = 32 := by omega
  set a := v % 2 ^ m with ha
  set b := v / 2 ^ m with hb
  have hbk : b < 2 ^ k := by
    rw [hb]
    apply Nat.div_lt_of_lt_mul
    calc v < 2 ^ 32 := hv
    _ = 2 ^ m * 2 ^ k := by rw [← pow_add, hmk]
  have h1 : (a * 2 ^ k + b) % 2 ^ k = b := by
    rw [mul_comm a, Nat.mul_add_mod, Nat.mod_eq_of_lt hbk]
  have h2 : (a * 2 ^ k + b) / 2 ^ k = a := by
    rw [mul_comm a, Nat.mul_add_div (Nat.pos_pow_of_pos k (by norm_num)),
        Nat.div_eq_of_lt hbk, Nat.add_zero]
  rw [h1, h2, mul_comm b, hb, ha]
  exact Nat.div_add_mod v (2 ^ m)

/-- A successful rotation search yields a rotation in `[1, 15]` whose left
rotation of `v` is the returned 8-bit immediate. -/
theorem findFlexRot_some_spec (v r i : Nat) (h : findFlexRot v = some (r, i)) :
    1 ≤ r ∧ r ≤ 15 ∧ i = rotateLeft32 v (2 * r) ∧ i ≤ 0xFF := by
  obtain ⟨j, hj, hf⟩ := List.exists_of_findSome?_eq_some h
  rw [List.mem_range] at hj
  simp only at hf
  by_cases hc : rotateLeft32 v (2 * (j + 1)) ≤ 0xFF
  · rw [if_pos hc] at hf
    simp only [Option.some.injEq, Prod.mk.injEq] at hf
    obtain ⟨rfl, rfl⟩ := hf
    exact ⟨by omega, by omega, rfl, hc⟩
  · rw [if_neg hc] at hf
    exact absurd hf (by simp)

/-- The rotation search succeeds whenever some rotation in `[1, 15]`
works. -/
theorem findFlexRot_isSome (v r : Nat) (h1 : 1 ≤ r) (h2 : r ≤ 15)
    (h3 : rotateLeft32 v (2 * r) ≤ 0xFF) : (findFlexRot v).isSome := by
  rcases hs : findFlexRot v with _ | p
  · exfalso
    rw [findFlexRot, List.findSome?_eq_none_iff] at hs
    have hm : r - 1 ∈ List.range 15 := by rw [List.mem_range]; omega
    have := hs (r - 1) hm
    simp only at this
    rw [show r - 1 + 1 = r by omega, if_pos h3] at this
    exact absurd this (by simp)
  · rfl

/-! Claim theorems. -/

/-- C2: for every 32-bit immediate `v`, `canHoldImm` succeeds iff rotating
`v` left by some even amount in `[0, 30]` yields a value `≤ 0xFF`; whenever
it succeeds with outputs `(RotateAmt, Immed_8)`, rotating `Immed_8` right by
`2·RotateAmt` reproduces `v`; and rotation 0 is chosen whenever
`v ≤ 0xFF`. -/
theorem canHoldImm_spec (v : Nat) (hv : v < 2 ^ 32) :
    ((canHoldImm v).isSome ↔
      ∃ r, r ≤ 15 ∧ rotateLeft32 v (2 * r) ≤ 0xFF) ∧
    (∀ rot imm8, canHoldImm v = some (rot, imm8) →
      rotateRight32 imm8 (2 * rot) = v) ∧
    (v ≤ 0xFF → canHoldImm v = some (0, v)) := by
  refine ⟨⟨?_, ?_⟩, ?_, ?_⟩
  · intro h
    by_cases hsmall : v ≤ 0xFF
    · exact ⟨0, by omega,
        by rw [Nat.mul_zero, rotateLeft32_zero v hv]; exact hsmall⟩
    · rw [canHoldImm, if_neg hsmall] at h
      obtain ⟨⟨r, i⟩, hsome⟩ := Option.isSome_iff_exists.mp h
      obtain ⟨_, h2, h3, h4⟩ := findFlexRot_some_spec v r i hsome
      exact ⟨r, h2, h3 ▸ h4⟩
  · rintro ⟨r, hr, hrot⟩
    by_cases hsmall : v ≤ 0xFF
    · rw [canHoldImm, if_pos hsmall]; rfl
    · rw [canHoldImm, if_neg hsmall]
      have hr1 : 1 ≤ r := by
        rcases Nat.eq_zero_or_pos r with rfl | h
        · rw [Nat.mul_zero, rotateLeft32_zero v hv] at hrot; omega
        · exact h
      exact findFlexRot_isSome v r hr1 hr hrot
  · intro rot imm8 h
    by_cases hsmall : v ≤ 0xFF
    · rw [canHoldImm, if_pos hsmall] at h
      simp only [Option.some.injEq, Prod.mk.injEq] at h
      obtain ⟨rfl, rfl⟩ := h
      rw [Nat.mul_zero, rotateRight32_zero]
    · rw [canHoldImm, if_neg hsmall] at h
      obtain ⟨h1, h2, h3, h4⟩ := findFlexRot_some_spec v rot imm8 h
      rw [h3]
      exact rotateRight_rotateLeft v (2 * rot) hv (by omega)
  · intro hsmall
    rw [canHoldImm, if_pos hsmall]

/-- C2 witness: the theorem applied at the concrete immediate 256
(encoded as rotation 12 with 8-bit immediate 1). -/
theorem canHoldImm_spec_witness :
    256 < 2 ^ 32 ∧
    (((canHoldImm 256).isSome ↔
        ∃ r, r ≤ 15 ∧ rotateLeft32 256 (2 * r) ≤ 0xFF) ∧
      (∀ rot imm8, canHoldImm 256 = some (rot, imm8) →
        rotateRight32 imm8 (2 * rot) = 256) ∧
      (256 ≤ 0xFF → canHoldImm 256 = some (0, 256))) :=
  ⟨by norm_num, canHoldImm_spec 256 (by norm_num)⟩

/-- C3 (amended): deletion of an unconditional branch to the layout
successor, fallthrough for a conditional branch whose false target is the
successor, swap-and-invert for a conditional branch whose true target is the
successor; a second application never changes the state, and it returns
false except on a deleted unconditional branch to the successor (where it
returns true again, contrary to the original claim). -/
theorem optimizeBranch_spec :
    (∀ b nn, b.label = none → b.targetTrue = none → b.targetFalse = some nn →
       optimizeBranch b (some nn) = ({ b with deleted := true }, true)) ∧
    (∀ b nn t, b.label = none → b.targetTrue = some t →
       b.targetFalse = some nn →
       optimizeBranch b (some nn) = ({ b with targetFalse := none }, true)) ∧
    (∀ b nn tf, b.label = none → b.targetTrue = some nn →
       b.targetFalse = some tf → tf ≠ nn →
       optimizeBranch b (some nn) =
         ({ b with predicate := getOppositeCondition b.predicate,
                   targetTrue := some tf, targetFalse := none }, true)) ∧
    (∀ b next,
       (optimizeBranch (optimizeBranch b next).1 next).1 =
         (optimizeBranch b next).1 ∧
       ((optimizeBranch (optimizeBranch b next).1 next).2 = true →
         (optimizeBranch b next).1.deleted = true ∧
         isUnconditionalBranch (optimizeBranch b next).1 = true)) := by
  refine ⟨?_, ?_, ?_, ?_⟩
  · intro b nn h1 h2 h3
    simp [optimizeBranch, isUnconditionalBranch, h1, h2, h3]
  · intro b nn t h1 h2 h3
    simp [optimizeBranch, isUnconditionalBranch, h1, h2, h3]
  · intro b nn tf h1 h2 h3 h4
    simp [optimizeBranch, isUnconditionalBranch, h1, h2, h3, h4]
  · intro b next
    rcases next with _ | nn
    · exact ⟨rfl, by simp [optimizeBranch]⟩
    · by_cases hl : b.label.isSome
      · constructor
        · simp [optimizeBranch, hl]
        · simp [optimizeBranch, hl]
      · rcases htf : b.targetFalse with _ | tf
        · constructor
          · simp [optimizeBranch, hl, htf]
          · simp [optimizeBranch, hl, htf]
        · by_cases h1 : isUnconditionalBranch b = true ∧ tf = nn
          · obtain ⟨h1a, h1b⟩ := h1
            rw [isUnconditionalBranch, Option.isNone_iff_eq_none] at h1a
            subst h1b
            constructor
            · simp [optimizeBranch, isUnconditionalBranch, hl, htf, h1a]
            · intro _
              simp [optimizeBranch, isUnconditionalBranch, hl, htf, h1a]
          · by_cases h2 : tf = nn
            · subst h2
              have htt : b.targetTrue ≠ none := by
                intro hc
                exact h1 ⟨by simp [isUnconditionalBranch, hc], rfl⟩
              rcases htt2 : b.targetTrue with _ | t
              · exact absurd htt2 htt
              · constructor
                · simp [optimizeBranch, isUnconditionalBranch, hl, htf, htt2]
                · simp [optimizeBranch, isUnconditionalBranch, hl, htf, htt2]
            · by_cases h3 : b.targetTrue = some nn
              · constructor
                · simp [optimizeBranch, isUnconditionalBranch, hl, htf, h2, h3]
                · simp [optimizeBranch, isUnconditionalBranch, hl, htf, h2, h3]
              · constructor
                · simp [optimizeBranch, isUnconditionalBranch, hl, htf, h2, h3]
                · simp [optimizeBranch, isUnconditionalBranch, hl, htf, h2, h3]

/-- C3 counterexample: an unconditional branch to the layout successor is
deleted by the first application, but the second application with the same
successor returns true again, not false as the claim states. -/
theorem optimizeBranch_claim_cex :
    (optimizeBranch ⟨none, some 1, none, Cond.al, false⟩ (some 1)).2 = true ∧
    (optimizeBranch ⟨none, some 1, none, Cond.al, false⟩
        (some 1)).1.deleted = true ∧
    (optimizeBranch
        (optimizeBranch ⟨none, some 1, none, Cond.al, false⟩ (some 1)).1
        (some 1)).2 = true := by decide

/-- C3 witness: the three rewrite cases of the theorem at concrete
branches. -/
theorem optimizeBranch_spec_witness :
    optimizeBranch ⟨none, some 2, none, Cond.al, false⟩ (some 2) =
      (⟨none, some 2, none, Cond.al, true⟩, true) ∧
    optimizeBranch ⟨some 3, some 2, none, Cond.eq, false⟩ (some 2) =
      (⟨some 3, none, none, Cond.eq, false⟩, true) ∧
    optimizeBranch ⟨some 2, some 3, none, Cond.eq, false⟩ (some 2) =
      (⟨some 3, none, none, Cond.ne, false⟩, true) := by
  obtain ⟨h1, h2, h3, _⟩ := optimizeBranch_spec
  exact ⟨h1 _ 2 rfl rfl rfl, h2 _ 2 3 rfl rfl rfl,
         h3 _ 2 3 rfl rfl rfl (by decide)⟩

/-- C1 (amended): a reference `R ≤ B` is converted to absolute index
`B − R` without diagnostic; `R > B` is diagnosed and recovered as 0; the
resulting absolute index is at most `B`, and it is strictly less than `B`
whenever `R ≥ 1` and `B ≥ 1` (for `R = 0` the result equals `B`, contrary
to the original claim). -/
theorem convertRelativeToAbsIndex_spec (id base : Int)
    (hid : 0 ≤ id) (hbase : 0 ≤ base) :
    (id ≤ base → convertRelativeToAbsIndex id base = (base - id, false)) ∧
    (base < id → convertRelativeToAbsIndex id base = (0, true)) ∧
    (convertRelativeToAbsIndex id base).1 ≤ base ∧
    (1 ≤ id → 1 ≤ base → (convertRelativeToAbsIndex id base).1 < base) := by
  unfold convertRelativeToAbsIndex
  split_ifs with h
  · exact ⟨fun hc => absurd hc (by omega), fun _ => rfl,
      by show (0 : Int) ≤ base; omega,
      fun _ hb => by show (0 : Int) < base; omega⟩
  · exact ⟨fun _ => rfl, fun hc => absurd hc (by omega),
      by show base - id ≤ base; omega,
      fun h1 _ => by show base - id < base; omega⟩

/-- C1 counterexample: the reference value 0 converts without diagnostic to
absolute index `B` itself, which is not less than `B`; a function block
using reference 0 against a forward-declared slot is accepted without any
diagnostic and its return instruction uses the value at absolute index
`B = 1`. -/
theorem convertRelativeToAbsIndex_claim_cex :
    convertRelativeToAbsIndex 0 1 = (1, false) ∧
    ¬((convertRelativeToAbsIndex 0 1).1 < 1) ∧
    (runFunctionBlock [ExtendedType.simple IceType.i32] 0 [IceType.i32]
        [FuncRecord.forwardTypeRef [1, 0], FuncRecord.retRec [0]]).2 = true ∧
    (runFunctionBlock [ExtendedType.simple IceType.i32] 0 [IceType.i32]
        [FuncRecord.forwardTypeRef [1, 0], FuncRecord.retRec [0]]).1.errors
      = [] ∧
    (runFunctionBlock [ExtendedType.simple IceType.i32] 0 [IceType.i32]
        [FuncRecord.forwardTypeRef [1, 0], FuncRecord.retRec [0]]).1.nodes =
      [[Inst.retValue (Operand.var 1 IceType.i32)]] ∧
    (runFunctionBlock [ExtendedType.simple IceType.i32] 0 [IceType.i32]
        [FuncRecord.forwardTypeRef [1, 0],
         FuncRecord.retRec [0]]).1.nextLocalInstIndex = 1 := by
  refine ⟨by decide, by decide, by decide, by decide, by decide, by decide⟩

/-- C1 witness: the amended theorem applied at the concrete reference 2
with base 5. -/
theorem convertRelativeToAbsIndex_spec_witness :
    ((2 : Int) ≤ 5 → convertRelativeToAbsIndex 2 5 = (3, false)) ∧
    ((5 : Int) < 2 → convertRelativeToAbsIndex 2 5 = (0, true)) ∧
    (convertRelativeToAbsIndex 2 5).1 ≤ 5 ∧
    ((1 : Int) ≤ 2 → (1 : Int) ≤ 5 → (convertRelativeToAbsIndex 2 5).1 < 5) := by
  have h := convertRelativeToAbsIndex_spec 2 5 (by norm_num) (by norm_num)
  exact ⟨fun _ => by rw [h.1 (by norm_num)]; norm_num, h.2.1, h.2.2.1, h.2.2.2⟩

/-- C9: for alloca/load/store records an alignment power above 29 is
diagnosed and recovered as 1; a power of at most 29 decodes to
`(1 << power) >> 1`, i.e. 0 for power 0 and `2^(power−1)` otherwise. -/
theorem extractAlignment_spec (name : String) (p : Nat) :
    (p ≤ 29 → extractAlignment name p = ((1 <<< p) >>> 1, [])) ∧
    (29 < p → (extractAlignment name p).1 = 1 ∧
      (extractAlignment name p).2 ≠ []) ∧
    (p ≤ 29 →
      (extractAlignment name p).1 = if p = 0 then 0 else 2 ^ (p - 1)) := by
  have hpow : (1 <<< p) >>> 1 = if p = 0 then 0 else 2 ^ (p - 1) := by
    rw [Nat.shiftLeft_eq, one_mul, Nat.shiftRight_eq_div_pow, pow_one]
    rcases Nat.eq_zero_or_pos p with rfl | hp
    · simp
    · rw [if_neg (by omega)]
      have : 2 ^ p = 2 ^ (p - 1) * 2 := by
        rw [← pow_succ]
        congr 1
        omega
      rw [this, Nat.mul_div_cancel _ (by norm_num)]
  refine ⟨?_, ?_, ?_⟩
  · intro h
    rw [extractAlignment, if_pos (by simpa [AlignPowerLimit] using h)]
  · intro h
    rw [extractAlignment, if_neg (by simp only [AlignPowerLimit]; omega)]
    simp
  · intro h
    rw [extractAlignment, if_pos (by simpa [AlignPowerLimit] using h), hpow]

/-- C9 witness: the theorem applied at the concrete instruction name
"Alloca" for powers 3 and 30. -/
theorem extractAlignment_spec_witness :
    extractAlignment "Alloca" 3 = (4, []) ∧
    (extractAlignment "Alloca" 30).1 = 1 ∧
    (extractAlignment "Alloca" 30).2 ≠ [] :=
  ⟨by rw [(extractAlignment_spec "Alloca" 3).1 (by norm_num)]; decide,
   (extractAlignment_spec "Alloca" 30).2.1 (by norm_num)⟩

/-- C5: the types-block `FUNCTION` record diagnoses a non-zero vararg flag;
a `void` parameter is recovered as `i32` in the stored signature, but —
contrary to the claim and to the obvious intent of the source, which builds
the diagnostic message and then never reports it — NO error is reported for
the `void` parameter. -/
theorem typesFunctionRecord_voidParam_eval :
    typesProcessFunctionRecord
        ⟨[ExtendedType.simple IceType.void, ExtendedType.simple IceType.i32,
          ExtendedType.undefined], 2, []⟩ [0, 1, 0] =
      ⟨[ExtendedType.simple IceType.void, ExtendedType.simple IceType.i32,
        ExtendedType.funcSig IceType.i32 [IceType.i32]], 3, []⟩ ∧
    (typesProcessFunctionRecord
        ⟨[ExtendedType.simple IceType.void, ExtendedType.simple IceType.i32,
          ExtendedType.undefined], 2, []⟩ [1, 1, 0]).errors.length = 1 := by
  refine ⟨by decide, by decide⟩

/-- C7 counterexample: a second `DECLAREBLOCKS(1)` record following a first
`DECLAREBLOCKS(1)` is not reported as a duplicate (the duplicate check only
fires when the basic-block count differs from 1). -/
theorem declareBlocks_claim_cex :
    (processRecord (processRecord (initFuncState [] 0 [])
        (FuncRecord.declareBlocks [1]))
      (FuncRecord.declareBlocks [1])).errors = [] := by decide

/-- C4 (amended): after block exit every basic block is non-empty; a block
that received no instructions is patched to `[unreachable]` (and hence ends
in a terminator) before predecessors are recomputed, while a non-empty
block is passed through unchanged — so the last instruction of every block
is a terminator provided every non-empty block already ended in one (the
parser does not detect a non-empty block lacking a terminator). -/
theorem exitBlock_spec (st : FuncState)
    (h : ∀ n ∈ st.nodes, ∀ hn : n ≠ [], (n.getLast hn).isTerminator = true) :
    (∀ n ∈ (exitBlock st).1.nodes, n ≠ []) ∧
    (∀ n ∈ (exitBlock st).1.nodes, ∀ hn : n ≠ [],
      (n.getLast hn).isTerminator = true) ∧
    (∀ i : Nat, st.nodes[i]? = some [] →
      (exitBlock st).1.nodes[i]? = some [Inst.unreachableInst]) ∧
    (∀ (i : Nat) (n : List Inst), st.nodes[i]? = some n → n ≠ [] →
      (exitBlock st).1.nodes[i]? = some n) := by
  have hnodes : (exitBlock st).1.nodes = exitBlockPatch st.nodes := rfl
  refine ⟨?_, ?_, ?_, ?_⟩
  · intro n hn
    rw [hnodes, exitBlockPatch] at hn
    obtain ⟨m, hm, rfl⟩ := List.mem_map.mp hn
    by_cases hme : m.isEmpty
    · simp [hme]
    · rw [if_neg hme]
      simpa [List.isEmpty_iff] using hme
  · intro n hn hne
    rw [hnodes, exitBlockPatch] at hn
    obtain ⟨m, hm, hfm⟩ := List.mem_map.mp hn
    by_cases hme : m.isEmpty
    · rw [if_pos hme] at hfm
      subst hfm
      simp [List.getLast, Inst.isTerminator]
    · rw [if_neg hme] at hfm
      subst hfm
      exact h m hm hne
  · intro i hi
    rw [hnodes, exitBlockPatch, List.getElem?_map, hi]
    rfl
  · intro i n hi hne
    rw [hnodes, exitBlockPatch, List.getElem?_map, hi]
    simp [List.isEmpty_iff, hne]

/-- C4 counterexample: a function block whose only block ends in a
non-terminator arithmetic instruction is accepted (no diagnostics, handed
to lowering), violating the claimed terminator invariant. -/
theorem exitBlock_claim_cex :
    (runFunctionBlock [] 0 [IceType.i32]
        [FuncRecord.declareBlocks [1], FuncRecord.binop [1, 1, 0]]).2 = true ∧
    (runFunctionBlock [] 0 [IceType.i32]
        [FuncRecord.declareBlocks [1], FuncRecord.binop [1, 1, 0]]).1.errors
      = [] ∧
    (runFunctionBlock [] 0 [IceType.i32]
        [FuncRecord.declareBlocks [1], FuncRecord.binop [1, 1, 0]]).1.nodes =
      [[Inst.arithmetic ArithOp.add (Operand.var 1 IceType.i32)
          (Operand.var 0 IceType.i32) (Operand.var 0 IceType.i32)]] ∧
    Inst.isTerminator
        (Inst.arithmetic ArithOp.add (Operand.var 1 IceType.i32)
          (Operand.var 0 IceType.i32) (Operand.var 0 IceType.i32)) = false := by
  refine ⟨by decide, by decide, by decide, by decide⟩

/-- C4 witness: the amended theorem applied at a concrete two-block state
(a returned entry block and an empty second block). -/
theorem exitBlock_spec_witness :
    (∀ n ∈ ((⟨[], [[Inst.retVoid], []], 0, 0, [], 0, false, 0, [], false⟩ :
        FuncState)).nodes,
      ∀ hn : n ≠ [], (n.getLast hn).isTerminator = true) ∧
    (∀ n ∈ (exitBlock
        ⟨[], [[Inst.retVoid], []], 0, 0, [], 0, false, 0, [], false⟩).1.nodes,
      n ≠ []) := by
  have hw : ∀ n ∈ ((⟨[], [[Inst.retVoid], []], 0, 0, [], 0, false, 0, [],
      false⟩ : FuncState)).nodes,
      ∀ hn : n ≠ [], (n.getLast hn).isTerminator = true := by
    intro n hn hne
    simp only [List.mem_cons, List.not_mem_nil, or_false] at hn
    rcases hn with rfl | rfl
    · simp [List.getLast, Inst.isTerminator]
    · exact absurd rfl hne
  exact ⟨hw, (exitBlock_spec _ hw).1⟩

/-- C7 (amended): on a fresh function block (a single pre-allocated entry
block), `DECLAREBLOCKS(n)` leaves `n` blocks (allocating `n − 1`), with
`n = 0` diagnosed and recovered as `n = 1`; a later `DECLAREBLOCKS` is
diagnosed as a duplicate only when the block count differs from 1 — a
second record after `DECLAREBLOCKS(1)` is accepted silently, contrary to
the original claim. -/
theorem declareBlocks_spec (st : FuncState) (n : Nat)
    (hf : st.fatal = false) (ht : st.instIsTerminating = false) :
    (st.nodes.length = 1 → 1 ≤ n →
      processRecord st (.declareBlocks [n]) =
        { st with nodes := st.nodes ++ List.replicate (n - 1) [] } ∧
      (processRecord st (.declareBlocks [n])).nodes.length = n) ∧
    (st.nodes.length = 1 → n = 0 →
      processRecord st (.declareBlocks [n]) =
        { st with errors := st.errors ++
            ["Functions must contain at least one basic block."] }) ∧
    (st.nodes.length ≠ 1 → 1 ≤ n →
      processRecord st (.declareBlocks [n]) =
        { st with errors := st.errors ++
            ["Duplicate function block count record"] }) ∧
    (st.nodes.length ≠ 1 → n = 0 →
      processRecord st (.declareBlocks [n]) =
        { st with errors := st.errors ++
            ["Functions must contain at least one basic block.",
             "Duplicate function block count record"] }) := by
  refine ⟨?_, ?_, ?_, ?_⟩
  · intro h1 h2
    constructor
    · simp [processRecord, hf, ht, h1, FuncState.addError, Nat.pos_iff_ne_zero.mp h2]
    · simp [processRecord, hf, ht, h1, FuncState.addError, Nat.pos_iff_ne_zero.mp h2]
      omega
  · intro h1 h2
    subst h2
    simp [processRecord, hf, ht, h1, FuncState.addError]
  · intro h1 h2
    simp [processRecord, hf, ht, h1, FuncState.addError, Nat.pos_iff_ne_zero.mp h2]
  · intro h1 h2
    subst h2
    simp [processRecord, hf, ht, h1, FuncState.addError]

/-- C7 witness: the amended theorem at a fresh state with `n = 3` (two
extra blocks allocated) and at a three-block state where a second record is
diagnosed as duplicate. -/
theorem declareBlocks_spec_witness :
    (processRecord (initFuncState [] 0 []) (.declareBlocks [3])).nodes.length
      = 3 ∧
    (processRecord
        (processRecord (initFuncState [] 0 []) (.declareBlocks [3]))
        (.declareBlocks [3])).errors =
      ["Duplicate function block count record"] := by
  have h1 := (declareBlocks_spec (initFuncState [] 0 []) 3 rfl rfl).1
    (by decide) (by decide)
  refine ⟨h1.2, ?_⟩
  have h2 := (declareBlocks_spec
    (processRecord (initFuncState [] 0 []) (.declareBlocks [3])) 3
    (by decide) (by decide)).2.2.1 (by rw [h1.2]; decide) (by decide)
  rw [h2]
  have : (processRecord (initFuncState [] 0 []) (.declareBlocks [3])).errors
      = [] := by decide
  rw [this]
  rfl

set_option maxHeartbeats 4000000 in
theorem castTruncRecord_spec (st : FuncState) (v tyId : Nat) (src : Operand)
    (hf : st.fatal = false) (ht : st.instIsTerminating = false)
    (hsrc : getRelativeOperand st (v : Nat) (st.nextLocalInstIndex : Int)
      = (some src, st))
    (hty : src.getType = IceType.i32)
    (htab : st.typeTable[tyId]? = some (ExtendedType.simple IceType.f64))
    (hli : st.nextLocalInstIndex - st.cachedNumGlobalValueIDs
      = st.localOperands.length)
    (hnode : st.currentBbIndex < st.nodes.length) :
    processRecord st (.castRec [v, tyId, 0]) =
      { st with
          errors := st.errors ++ ["Illegal cast: trunc i32 to f64"],
          localOperands := st.localOperands
            ++ [some (Operand.var st.nextVarNum IceType.f64)],
          nextVarNum := st.nextVarNum + 1,
          nextLocalInstIndex := st.nextLocalInstIndex + 1,
          nodes := st.nodes.set st.currentBbIndex
            (st.nodes[st.currentBbIndex]
              ++ [Inst.assign (Operand.var st.nextVarNum IceType.f64)
                    (Operand.var st.nextVarNum IceType.f64)]) } := by
  have hconv : convertCastOpToIceOp 0 IceType.i32 IceType.f64
      = (CastOp.trunc, false, ["Illegal cast: trunc i32 to f64"]) := by decide
  have hnone : st.localOperands[st.localOperands.length]? = none := by simp
  simp only [processRecord, hf, ht, Bool.false_eq_true, if_false,
    List.length_cons, List.length_nil, List.getElem!_cons_zero,
    List.getElem!_cons_succ, ne_eq, not_true_eq_false, reduceIte]
  simp only [hsrc]
  simp only [getSimpleTypeByID, htab, hty, hconv, FuncState.addErrors,
    List.append_nil]
  simp only [appendErrorInstruction, reduceIte, getNextInstVar, hli, hnone,
    createInstVar, reduceIte, setOperandAt, appendInst,
    List.getElem?_eq_getElem hnode]
  simp [hli]
  simp [List.getElem?_eq_getElem hnode, ht, hf]



set_option maxHeartbeats 4000000 in
theorem phiSignRotatedOperands_spec :
    (∀ (st : FuncState) (v tyId bb : Nat) (ty : IceType) (op : Operand)
      (hf : st.fatal = false) (ht : st.instIsTerminating = false)
      (htab : st.typeTable[tyId]? = some (ExtendedType.simple ty))
      (hty : ty ≠ IceType.void)
      (hli : st.nextLocalInstIndex - st.cachedNumGlobalValueIDs
        = st.localOperands.length)
      (hcb : st.cachedNumGlobalValueIDs ≤ st.nextLocalInstIndex)
      (heven : v % 2 = 0) (h2v : 2 ≤ v)
      (hv2 : v / 2 ≤ st.localOperands.length)
      (hslot : st.localOperands[st.localOperands.length - v / 2]?
        = some (some op))
      (hopty : op.getType = ty)
      (hbb : bb < st.nodes.length)
      (hnode : st.currentBbIndex < st.nodes.length),
      processRecord st (.phi [tyId, v, bb]) =
        { st with
            localOperands := st.localOperands
              ++ [some (Operand.var st.nextVarNum ty)],
            nextVarNum := st.nextVarNum + 1,
            nextLocalInstIndex := st.nextLocalInstIndex + 1,
            nodes := st.nodes.set st.currentBbIndex
              (st.nodes[st.currentBbIndex]
                ++ [Inst.phiInst (Operand.var st.nextVarNum ty) [(op, bb)]]) }) ∧
    (∀ (st : FuncState) (v : Nat) (op : Operand)
      (hf : st.fatal = false) (ht : st.instIsTerminating = false)
      (hli : st.nextLocalInstIndex - st.cachedNumGlobalValueIDs
        = st.localOperands.length)
      (hcb : st.cachedNumGlobalValueIDs ≤ st.nextLocalInstIndex)
      (h1v : 1 ≤ v) (hvlen : v ≤ st.localOperands.length)
      (hslot : st.localOperands[st.localOperands.length - v]?
        = some (some op))
      (hopty : op.getType = IceType.i32)
      (hnode : st.currentBbIndex < st.nodes.length),
      processRecord st (.binop [v, v, 0]) =
        { st with
            localOperands := st.localOperands
              ++ [some (Operand.var st.nextVarNum IceType.i32)],
            nextVarNum := st.nextVarNum + 1,
            nextLocalInstIndex := st.nextLocalInstIndex + 1,
            nodes := st.nodes.set st.currentBbIndex
              (st.nodes[st.currentBbIndex]
                ++ [Inst.arithmetic ArithOp.add
                      (Operand.var st.nextVarNum IceType.i32) op op]) }) ∧
    (naClDecodeSignRotatedValue 2 = 1 ∧
      (processRecord
          ⟨[ExtendedType.simple IceType.i32], [[]], 0, 0,
           [some (Operand.var 0 IceType.i32), some (Operand.var 1 IceType.i32),
            some (Operand.var 2 IceType.i32)], 3, false, 3, [], false⟩
          (.phi [0, 2, 0])).nodes =
        [[Inst.phiInst (Operand.var 3 IceType.i32)
            [(Operand.var 2 IceType.i32, 0)]]] ∧
      (processRecord
          ⟨[ExtendedType.simple IceType.i32], [[]], 0, 0,
           [some (Operand.var 0 IceType.i32), some (Operand.var 1 IceType.i32),
            some (Operand.var 2 IceType.i32)], 3, false, 3, [], false⟩
          (.binop [2, 2, 0])).nodes =
        [[Inst.arithmetic ArithOp.add (Operand.var 3 IceType.i32)
            (Operand.var 1 IceType.i32) (Operand.var 1 IceType.i32)]]) := by
  refine ⟨?_, ?_, by decide, by decide, by decide⟩
  · intro st v tyId bb ty op hf ht htab hty hli hcb heven h2v hv2 hslot hopty
      hbb hnode
    have hnone : st.localOperands[st.localOperands.length]? = none := by simp
    have hdec : naClDecodeSignRotatedValue v = ((v / 2 : Nat) : Int) := by
      rw [naClDecodeSignRotatedValue, if_neg (by omega)]
    have hcvt : convertRelativeToAbsIndex ((v / 2 : Nat) : Int)
        (st.nextLocalInstIndex : Int)
        = (((st.nextLocalInstIndex - v / 2 : Nat) : Int), false) := by
      rw [convertRelativeToAbsIndex, if_neg (by push_cast; omega)]
      rw [Int.ofNat_sub (by omega)]
    have hidx : st.nextLocalInstIndex - v / 2 - st.cachedNumGlobalValueIDs
        = st.localOperands.length - v / 2 := by omega
    have hlt : st.localOperands.length - v / 2 < st.localOperands.length := by
      have := List.getElem?_eq_some_iff.mp hslot
      omega
    have hget : (st.localOperands
        ++ [some (Operand.var st.nextVarNum ty)])[st.localOperands.length
          - v / 2]? = some (some op) := by
      rw [List.getElem?_append_left hlt, hslot]
    have hnc : ¬(st.nextLocalInstIndex - v / 2
        < st.cachedNumGlobalValueIDs) := by omega
    simp only [processRecord, hf, ht, Bool.false_eq_true, if_false,
      List.length_cons, List.length_nil, List.getElem!_cons_zero,
      List.getElem!_cons_succ, ne_eq, not_true_eq_false, reduceIte]
    simp only [getSimpleTypeByID, htab, FuncState.addErrors, List.append_nil]
    simp only [hty, not_false_iff, reduceIte, getNextInstVar, hli, hnone,
      createInstVar, setOperandAt, List.drop_succ_cons, List.drop_zero]
    simp only [hli, eq_self_iff_true, if_true, reduceIte, phiLoop, hdec,
      getRelativeOperand, hcvt, Int.toNat_natCast, hnc, hidx, getOperand,
      hget, hopty, getBasicBlockIdx, hbb, appendInst,
      List.getElem?_eq_getElem hnode, FuncState.addError]
    simp [hnc, hidx, hget, hopty, hbb, List.getElem?_eq_getElem hnode, ht,
      hf, phiLoop, getBasicBlockIdx, appendInst, getOperand]
  · intro st v op hf ht hli hcb h1v hvlen hslot hopty hnode
    have hnone : st.localOperands[st.localOperands.length]? = none := by simp
    have hcvt : convertRelativeToAbsIndex ((v : Nat) : Int)
        (st.nextLocalInstIndex : Int)
        = (((st.nextLocalInstIndex - v : Nat) : Int), false) := by
      rw [convertRelativeToAbsIndex, if_neg (by omega)]
      rw [Int.ofNat_sub (by omega)]
    have hidx : st.nextLocalInstIndex - v - st.cachedNumGlobalValueIDs
        = st.localOperands.length - v := by omega
    have hnc : ¬(st.nextLocalInstIndex - v
        < st.cachedNumGlobalValueIDs) := by omega
    have hb : convertBinopOpcode 0 IceType.i32
        = (ArithOp.add, true, []) := by decide
    simp only [processRecord, hf, ht, Bool.false_eq_true, if_false,
      List.length_cons, List.length_nil, List.getElem!_cons_zero,
      List.getElem!_cons_succ, ne_eq, not_true_eq_false, reduceIte]
    simp only [getRelativeOperand, hcvt, Int.toNat_natCast, getOperand, hnc,
      hidx, hslot, hopty, hb, FuncState.addErrors, List.append_nil]
    simp only [getNextInstVar, hli, hnone, createInstVar, setOperandAt,
      appendInst, List.getElem?_eq_getElem hnode]
    simp [hli, hnc, hidx, hslot, hopty, hb, getOperand, appendInst,
      getNextInstVar, hnone, createInstVar, setOperandAt,
      List.getElem?_eq_getElem hnode, ht, hf]

/-- C6 witness: the theorem applied at the function state right after
installing one i32 argument, with a type table holding i32 and f64. -/
theorem castTruncRecord_spec_witness :
    (processRecord (initFuncState
        [ExtendedType.simple IceType.i32, ExtendedType.simple IceType.f64] 0
        [IceType.i32]) (FuncRecord.castRec [1, 1, 0])).errors =
      ["Illegal cast: trunc i32 to f64"] ∧
    (processRecord (initFuncState
        [ExtendedType.simple IceType.i32, ExtendedType.simple IceType.f64] 0
        [IceType.i32]) (FuncRecord.castRec [1, 1, 0])).nextLocalInstIndex
      = 2 ∧
    (processRecord (initFuncState
        [ExtendedType.simple IceType.i32, ExtendedType.simple IceType.f64] 0
        [IceType.i32]) (FuncRecord.castRec [1, 1, 0])).nodes =
      [[Inst.assign (Operand.var 1 IceType.f64)
          (Operand.var 1 IceType.f64)]] := by
  have h := castTruncRecord_spec
    (initFuncState [ExtendedType.simple IceType.i32,
      ExtendedType.simple IceType.f64] 0 [IceType.i32]) 1 1
    (Operand.var 0 IceType.i32) (by decide) (by decide) (by decide)
    (by decide) (by decide) (by decide) (by decide)
  rw [h]
  refine ⟨by decide, by decide, by decide⟩

/-- C10 witness: the two universally quantified parts of the theorem applied
at the concrete three-operand state of the closed contrast. -/
theorem phiSignRotatedOperands_spec_witness :
    (processRecord
        ⟨[ExtendedType.simple IceType.i32], [[]], 0, 0,
         [some (Operand.var 0 IceType.i32), some (Operand.var 1 IceType.i32),
          some (Operand.var 2 IceType.i32)], 3, false, 3, [], false⟩
        (FuncRecord.phi [0, 2, 0])).nodes =
      [[Inst.phiInst (Operand.var 3 IceType.i32)
          [(Operand.var 2 IceType.i32, 0)]]] ∧
    (processRecord
        ⟨[ExtendedType.simple IceType.i32], [[]], 0, 0,
         [some (Operand.var 0 IceType.i32), some (Operand.var 1 IceType.i32),
          some (Operand.var 2 IceType.i32)], 3, false, 3, [], false⟩
        (FuncRecord.binop [2, 2, 0])).nodes =
      [[Inst.arithmetic ArithOp.add (Operand.var 3 IceType.i32)
          (Operand.var 1 IceType.i32) (Operand.var 1 IceType.i32)]] := by
  have hA := phiSignRotatedOperands_spec.1
    ⟨[ExtendedType.simple IceType.i32], [[]], 0, 0,
     [some (Operand.var 0 IceType.i32), some (Operand.var 1 IceType.i32),
      some (Operand.var 2 IceType.i32)], 3, false, 3, [], false⟩
    2 0 0 IceType.i32 (Operand.var 2 IceType.i32)
    rfl rfl (by decide) (by decide) (by decide) (by decide) (by decide)
    (by decide) (by decide) (by decide) (by decide) (by decide) (by decide)
  have hB := phiSignRotatedOperands_spec.2.1
    ⟨[ExtendedType.simple IceType.i32], [[]], 0, 0,
     [some (Operand.var 0 IceType.i32), some (Operand.var 1 IceType.i32),
      some (Operand.var 2 IceType.i32)], 3, false, 3, [], false⟩
    2 (Operand.var 1 IceType.i32)
    rfl rfl (by decide) (by decide) (by decide) (by decide) (by decide)
    (by decide) (by decide)
  exact ⟨by rw [hA]; decide, by rw [hB]; decide⟩

end Subzero
